import Mathlib

/-!
# The Hamlib rig-session adapter of FreeDV (src/hamlib.cpp)

A shallow embedding of the class `Hamlib`: the sorted catalogue of radio models built by the
constructor, and the session operations `connect`, `ptt`, `is_correct_sideband` and `close`.

The radio-control library is an external collaborator.  It is represented by a record of
response functions (`RigService`), universally quantified in every theorem, and each operation
returns, next to its C++ result and the new object state, the list of library calls it made, in
order.  Diagnostics written with `fprintf(stderr, ...)` are write-only and are left out;
`rigerror` is a pure lookup of a message and is a function of the record, not a logged call.
-/

namespace FreeDV

/-! ## Data of the external library that the adapter touches -/

/-- Modelled from the spec: the record `struct rig_caps` of the radio-control library (its header
is not under src/), reduced to the three fields the adapter reads: manufacturer name, model name
and numeric model identifier. -/
structure rig_caps where
  mfg_name : String
  model_name : String
  rig_model : Int
deriving DecidableEq

/-- Modelled from the spec: the handle `RIG` returned by `rig_init` (declared by the library, not
under src/).  `id` stands for the identity of the allocation; the other fields are the members of
`state.rigport` that `connect` writes or prints: the path buffer and the serial parameters. -/
structure RIG where
  id : Nat
  pathname : List Char
  rate : Int
  data_bits : Int
  stop_bits : Int
deriving DecidableEq

/-- Modelled from the spec: the channel selector `vfo_t` of the library, an enumerated tag; the
adapter only ever passes `RIG_VFO_CURR`. -/
inductive vfo_t where
  | RIG_VFO_CURR
  | other (tag : Nat)
deriving DecidableEq

/-- Modelled from the spec: the transmit-key state `ptt_t` of the library, an enumerated tag; the
adapter passes `RIG_PTT_ON` or `RIG_PTT_OFF`. -/
inductive ptt_t where
  | RIG_PTT_OFF
  | RIG_PTT_ON
  | other (tag : Nat)
deriving DecidableEq

/-- Modelled from the spec: the mode enumeration `rmode_t` of the library, as tagged values: the
four sideband modes the adapter names (upper and lower sideband voice, upper and lower sideband
digital packet), the initial value `RIG_MODE_NONE`, and every other mode as `other tag`. -/
inductive rmode_t where
  | RIG_MODE_NONE
  | RIG_MODE_USB
  | RIG_MODE_LSB
  | RIG_MODE_PKTUSB
  | RIG_MODE_PKTLSB
  | other (tag : Nat)
deriving DecidableEq

/-- Modelled from the spec: the verbosity levels passed to `rig_set_debug`. -/
inductive rig_debug_level_e where
  | RIG_DEBUG_NONE
  | RIG_DEBUG_VERBOSE
deriving DecidableEq

/-- Modelled from the spec: the frequency type `freq_t` of the library, a C `double` holding Hz.
A double is a rational number, one of the two infinities, or a NaN. -/
inductive freq_t where
  | finite (hz : ℚ)
  | pos_inf
  | neg_inf
  | nan
deriving DecidableEq

/-- The C comparison `freq >= c` of a double with a finite constant. -/
def freq_t.ge : freq_t → ℚ → Bool
  | .finite hz, c => decide (c ≤ hz)
  | .pos_inf, _ => true
  | .neg_inf, _ => false
  | .nan, _ => false

/-- The C comparison `freq < c` of a double with a finite constant. -/
def freq_t.lt : freq_t → ℚ → Bool
  | .finite hz, c => decide (hz < c)
  | .pos_inf, _ => false
  | .neg_inf, _ => true
  | .nan, _ => false

/-- One call to the radio-control library, with its arguments; `rig_init` also records the handle
it returned (`none` for a NULL result), which is the allocation of a handle. -/
inductive Call where
  | rig_set_debug (level : rig_debug_level_e)
  | rig_load_all_backends
  | rig_list_foreach
  | rig_init (rig_model : Int) (result : Option RIG)
  | rig_open (rig : RIG)
  | rig_close (rig : RIG)
  | rig_cleanup (rig : RIG)
  | rig_set_ptt (rig : RIG) (vfo : vfo_t) (ptt : ptt_t)
  | rig_get_mode (rig : RIG) (vfo : vfo_t)
  | rig_get_freq (rig : RIG) (vfo : vfo_t)
deriving DecidableEq

/-- The radio-control library as seen by the adapter: the constants `RIG_OK` and `FILPATHLEN` (a
positive buffer size) of its header, the registry walked by `rig_list_foreach`, and the answer of
every call the adapter makes.  `rig_get_mode` answers with its return code and the values left in `mode` and `passband`;
`rig_get_freq` with its return code and the value left in `freq`. -/
structure RigService where
  RIG_OK : Int
  FILPATHLEN : Nat
  registry : List rig_caps
  rig_init : Int → Option RIG
  rig_open : RIG → Int
  rig_set_ptt : RIG → vfo_t → ptt_t → Int
  rig_get_mode : RIG → vfo_t → Int × rmode_t × Int
  rig_get_freq : RIG → vfo_t → Int × freq_t
  rigerror : Int → String

/-! ## C library functions used by the adapter -/

/-- The terminating character of a C string. -/
def NUL : Char := Char.ofNat 0

/-- The C function `tolower` in the POSIX locale, on a character taken as an unsigned value. -/
def tolower (c : Char) : Int :=
  if 65 ≤ c.toNat ∧ c.toNat ≤ 90 then (c.toNat : Int) + 32 else (c.toNat : Int)

/-- The loop of the C function `strcasecmp`: walk both strings, return the difference of the first
pair of lower-cased characters that differ, or 0 when the terminator is reached on both.  The end
of the list is the terminator, of value 0. -/
def strcasecmp_chars : List Char → List Char → Int
  | [], [] => 0
  | [], c2 :: _ => 0 - tolower c2
  | c1 :: _, [] => tolower c1 - 0
  | c1 :: s1, c2 :: s2 =>
    if tolower c1 ≠ tolower c2 then tolower c1 - tolower c2
    else if tolower c1 = 0 then 0
    else strcasecmp_chars s1 s2

/-- The C function `strcasecmp` (POSIX locale): negative, zero or positive as the first string is
below, equal to or above the second, ignoring the case of letters.  Characters stand for the
bytes of the C string; `rig_cmp` uses the sign of the result only. -/
def strcasecmp (s1 s2 : String) : Int :=
  strcasecmp_chars s1.data s2.data

/-- The C function `strncpy(dst, src, n)` on a destination buffer of more than `n` characters: the
first `n` characters of the buffer become the characters of `src` up to its terminator, padded
with NUL; what lies beyond stays. -/
def strncpy (dst src : List Char) (n : Nat) : List Char :=
  let s := (src.takeWhile (fun c => c ≠ NUL)).take n
  s ++ List.replicate (n - s.length) NUL ++ dst.drop n

/-- A comparison is a strict weak ordering, the requirement of `std::sort` on its comparator:
irreflexive, asymmetric, transitive, and with a transitive incomparability relation. -/
structure StrictWeakOrdering {α : Type} (comp : α → α → Bool) : Prop where
  irrefl : ∀ a, comp a a = false
  asymm : ∀ a b, comp a b = true → comp b a = false
  trans : ∀ a b c, comp a b = true → comp b c = true → comp a c = true
  incomp_trans : ∀ a b c, comp a b = false → comp b a = false →
    comp b c = false → comp c b = false → comp a c = false ∧ comp c a = false

/-- The contract of the C++ standard library function `std::sort(first, last, comp)`: when `comp`
is a strict weak ordering, the range afterwards is a permutation of the range before and no later
element compares below an earlier one.  The algorithm itself is left to the library. -/
def SortContract {α : Type} (std_sort : (α → α → Bool) → List α → List α) : Prop :=
  ∀ (comp : α → α → Bool) (xs : List α), StrictWeakOrdering comp →
    (std_sort comp xs).Perm xs ∧ (std_sort comp xs).Pairwise (fun a b => comp b a = false)

/-- Insertion of one element before the first element that compares above it. -/
def ordered_insert {α : Type} (comp : α → α → Bool) (a : α) : List α → List α
  | [] => [a]
  | b :: l => if comp a b then a :: b :: l else b :: ordered_insert comp a l

/-- Insertion sort, one implementation that meets `SortContract`. -/
def insertion_sort {α : Type} (comp : α → α → Bool) : List α → List α
  | [] => []
  | a :: l => ordered_insert comp a (insertion_sort comp l)

/-- Modelled from the spec: the registry enumeration `rig_list_foreach` of the library: it calls
`cfunc` on every registered model, in registry order, and stops early when `cfunc` returns 0. -/
def rig_list_foreach {σ : Type} (cfunc : rig_caps → σ → Int × σ) : List rig_caps → σ → σ
  | [], data => data
  | rig :: rest, data =>
    let r := cfunc rig data
    if r.1 = 0 then r.2 else rig_list_foreach cfunc rest r.2

/-! ## The adapter -/

/-- The callback `build_list`: append the model to the list and ask to continue. -/
def build_list (rig : rig_caps) (rigList : List rig_caps) : Int × List rig_caps :=
  (1, rigList ++ [rig])

/-- The comparator `rig_cmp`: manufacturer name, then model name, both ignoring case, then the
numeric model identifier. -/
def rig_cmp (rig1 rig2 : rig_caps) : Bool :=
  let r := strcasecmp rig1.mfg_name rig2.mfg_name
  if r ≠ 0 then decide (r < 0)
  else
    let r := strcasecmp rig1.model_name rig2.model_name
    if r ≠ 0 then decide (r < 0)
    else decide (rig1.rig_model < rig2.rig_model)

/-- The members of class `Hamlib`: the handle `m_rig` (`none` is NULL, the Empty session) and the
catalogue `m_rigList`. -/
structure Hamlib where
  m_rig : Option RIG
  m_rigList : List rig_caps
deriving DecidableEq

/-- What a member function leaves: its return value, the object afterwards, and the library calls
it made, in order. -/
structure Outcome (α : Type) where
  ret : α
  self : Hamlib
  calls : List Call

/-- What a member function with the reference parameter `hamlibError` leaves: as `Outcome`, plus
the content of the caller's error string afterwards. -/
structure OutcomeErr where
  ret : Bool
  hamlibError : String
  self : Hamlib
  calls : List Call

/-- The constructor `Hamlib::Hamlib()`: silence the library, collect the registry into
`m_rigList`, sort it with `rig_cmp`, restore the verbosity, and start with no handle. -/
def Hamlib.ctor (std_sort : (rig_caps → rig_caps → Bool) → List rig_caps → List rig_caps)
    (svc : RigService) : Outcome Unit :=
  let m_rigList := rig_list_foreach build_list svc.registry []
  let m_rigList := std_sort rig_cmp m_rigList
  { ret := (),
    self := { m_rig := none, m_rigList := m_rigList },
    calls := [Call.rig_set_debug .RIG_DEBUG_NONE, Call.rig_load_all_backends,
      Call.rig_list_foreach, Call.rig_set_debug .RIG_DEBUG_VERBOSE] }

/-- The member `Hamlib::close()`: with a handle, close the port, release the handle and forget it;
without one, nothing. -/
def Hamlib.close (self : Hamlib) : Outcome Unit :=
  match self.m_rig with
  | some rig =>
    { ret := (), self := { self with m_rig := none },
      calls := [Call.rig_close rig, Call.rig_cleanup rig] }
  | none => { ret := (), self := self, calls := [] }

/-- The destructor `Hamlib::~Hamlib()`: close when a handle is held. -/
def Hamlib.destroy (self : Hamlib) : Outcome Unit :=
  if self.m_rig.isSome then self.close else { ret := (), self := self, calls := [] }

/-- The configuration step of `connect`, between `rig_init` and `rig_open`: copy the port name
into the path buffer of the handle and, when `serial_rate` is not 0, overwrite the serial rate. -/
def connect_configure (svc : RigService) (rig0 : RIG) (serial_port : List Char)
    (serial_rate : Int) : RIG :=
  let rig1 := { rig0 with pathname := strncpy rig0.pathname serial_port (svc.FILPATHLEN - 1) }
  if serial_rate ≠ 0 then { rig1 with rate := serial_rate } else rig1

/-- The member `Hamlib::connect(rig_index, serial_port, serial_rate)`.  The model identifier is
read from `m_rigList` before the old handle is closed; `close` does not touch `m_rigList`. -/
def Hamlib.connect (svc : RigService) (self : Hamlib) (rig_index : Nat)
    (serial_port : List Char) (serial_rate : Int) : Outcome Bool :=
  if h : self.m_rigList.length ≤ rig_index then
    { ret := false, self := self, calls := [] }
  else
    have hlt : rig_index < self.m_rigList.length := Nat.lt_of_not_le h
    let rig_model := (self.m_rigList[rig_index]).rig_model
    let c := if self.m_rig.isSome then self.close else { ret := (), self := self, calls := [] }
    match svc.rig_init rig_model with
    | none =>
      { ret := false, self := { c.self with m_rig := none },
        calls := c.calls ++ [Call.rig_init rig_model none] }
    | some rig0 =>
      let rig2 := connect_configure svc rig0 serial_port serial_rate
      let calls := c.calls ++ [Call.rig_init rig_model (some rig0), Call.rig_open rig2]
      if svc.rig_open rig2 = svc.RIG_OK then
        { ret := true, self := { c.self with m_rig := some rig2 }, calls := calls }
      else
        { ret := false, self := { c.self with m_rig := some rig2 }, calls := calls }

/-- The member `Hamlib::ptt(press, hamlibError)`. -/
def Hamlib.ptt (svc : RigService) (self : Hamlib) (press : Bool) (_hamlibError : String) :
    OutcomeErr :=
  let hamlibError := ""
  match self.m_rig with
  | none => { ret := false, hamlibError := hamlibError, self := self, calls := [] }
  | some rig =>
    let on_ := if press then ptt_t.RIG_PTT_ON else ptt_t.RIG_PTT_OFF
    let retcode := svc.rig_set_ptt rig .RIG_VFO_CURR on_
    let hamlibError := if retcode ≠ svc.RIG_OK then svc.rigerror retcode else hamlibError
    { ret := decide (retcode = svc.RIG_OK), hamlibError := hamlibError, self := self,
      calls := [Call.rig_set_ptt rig .RIG_VFO_CURR on_] }

/-- The advisory text assigned to `hamlibError` by `is_correct_sideband`. -/
def sidebandAdvisory : String :=
  "Your radio may be set to the incorrect sideband for FreeDV (LSB under 10MHz, USB >= 10MHz). Please confirm settings on your radio."

/-- The expression assigned to `retVal` in `is_correct_sideband`. -/
def sidebandRule (freq : freq_t) (mode : rmode_t) : Bool :=
  (freq.ge 10000000 && (mode == .RIG_MODE_USB || mode == .RIG_MODE_PKTUSB)) ||
  (freq.lt 10000000 && (mode == .RIG_MODE_LSB || mode == .RIG_MODE_PKTLSB))

/-- The member `Hamlib::is_correct_sideband(hamlibError)`. -/
def Hamlib.is_correct_sideband (svc : RigService) (self : Hamlib) (_hamlibError : String) :
    OutcomeErr :=
  let retVal := false
  let hamlibError := ""
  match self.m_rig with
  | none => { ret := false, hamlibError := hamlibError, self := self, calls := [] }
  | some rig =>
    let m := svc.rig_get_mode rig .RIG_VFO_CURR
    let result := m.1
    let mode := m.2.1
    if result ≠ svc.RIG_OK then
      { ret := retVal, hamlibError := svc.rigerror result, self := self,
        calls := [Call.rig_get_mode rig .RIG_VFO_CURR] }
    else
      let f := svc.rig_get_freq rig .RIG_VFO_CURR
      let result := f.1
      let freq := f.2
      let calls := [Call.rig_get_mode rig .RIG_VFO_CURR, Call.rig_get_freq rig .RIG_VFO_CURR]
      if result ≠ svc.RIG_OK then
        { ret := retVal, hamlibError := svc.rigerror result, self := self, calls := calls }
      else
        let retVal := sidebandRule freq mode
        let hamlibError := if !retVal then sidebandAdvisory else hamlibError
        { ret := retVal, hamlibError := hamlibError, self := self, calls := calls }

/-! ## The catalogue order in the words of the specification -/

/-- The key under which the specification compares a name "case-insensitively": the characters of
the name up to the terminator of the C string, every letter converted to lower case, as character
codes. -/
def spec_name_key (name : List Char) : List Nat :=
  (name.takeWhile (fun c => c ≠ NUL)).map (fun c => (Char.toLower c).toNat)

/-- Alphabetical order of two keys: the first position where they differ decides, and a proper
initial segment comes first. -/
def lexLess : List Nat → List Nat → Bool
  | _, [] => false
  | [], _ :: _ => true
  | x :: xs, y :: ys => decide (x < y) || (decide (x = y) && lexLess xs ys)

/-- The order of the catalogue as the specification words it: by manufacturer name, then by model
name, both compared case-insensitively, ties broken by the numeric model identifier. -/
def spec_catalog_less (a b : rig_caps) : Bool :=
  lexLess (spec_name_key a.mfg_name.data) (spec_name_key b.mfg_name.data) ||
  (decide (spec_name_key a.mfg_name.data = spec_name_key b.mfg_name.data) &&
    (lexLess (spec_name_key a.model_name.data) (spec_name_key b.model_name.data) ||
      (decide (spec_name_key a.model_name.data = spec_name_key b.model_name.data) &&
        decide (a.rig_model < b.rig_model))))

/-! ## Concrete inputs -/

/-- A handle as `rig_init` may return it: an empty path buffer of 8 characters and 9600 8N1. -/
def sampleRig : RIG :=
  { id := 1, pathname := List.replicate 8 NUL, rate := 9600, data_bits := 8, stop_bits := 1 }

/-- The descriptor of the Yaesu FT-817, model 120. -/
def yaesuFT817 : rig_caps := ⟨"Yaesu", "FT-817", 120⟩

/-- The descriptor of the Icom IC-7300, model 3081. -/
def icomIC7300 : rig_caps := ⟨"Icom", "IC-7300", 3081⟩

/-- The descriptor of the Yaesu FT-891, model 3069. -/
def yaesuFT891 : rig_caps := ⟨"Yaesu", "FT-891", 3069⟩

/-- A library in which every call succeeds (`RIG_OK` is 0), with a three-model registry; the radio
reports upper sideband at 14.236 MHz. -/
def sampleService : RigService :=
  { RIG_OK := 0,
    FILPATHLEN := 8,
    registry := [yaesuFT817, icomIC7300, yaesuFT891],
    rig_init := fun _ => some sampleRig,
    rig_open := fun _ => 0,
    rig_set_ptt := fun _ _ _ => 0,
    rig_get_mode := fun _ _ => (0, rmode_t.RIG_MODE_USB, 2400),
    rig_get_freq := fun _ _ => (0, freq_t.finite 14236000),
    rigerror := fun code => if code = 0 then "Command completed successfully" else "Communication timed out" }

/-- The same library with a radio that answers no command: opening the port, keying and both
queries fail with code -5 resp. -6. -/
def deafService : RigService :=
  { sampleService with
    rig_open := fun _ => -5,
    rig_set_ptt := fun _ _ _ => -5,
    rig_get_mode := fun _ _ => (-5, rmode_t.RIG_MODE_NONE, 0),
    rig_get_freq := fun _ _ => (-6, freq_t.finite 0) }

/-- The same library with a radio that reports its mode but not its frequency. -/
def halfDeafService : RigService :=
  { sampleService with rig_get_freq := fun _ _ => (-6, freq_t.finite 0) }

/-- A session holding `sampleRig`, with a one-model catalogue. -/
def sampleOpen : Hamlib :=
  { m_rig := some sampleRig, m_rigList := [icomIC7300] }

/-- C7: on an Empty session, for every value of pressed and every prior error string, ptt and
is_correct_sideband both return false with an empty error string, make no library call and leave
the session as it was. -/
theorem empty_session_refuses (svc : RigService) (rigList : List rig_caps) (press : Bool)
    (err0 : String) :
    Hamlib.ptt svc ⟨none, rigList⟩ press err0
        = { ret := false, hamlibError := "", self := ⟨none, rigList⟩, calls := [] } ∧
      Hamlib.is_correct_sideband svc ⟨none, rigList⟩ err0
        = { ret := false, hamlibError := "", self := ⟨none, rigList⟩, calls := [] } :=
  ⟨rfl, rfl⟩

/-- C8: close is idempotent: closing a closed session changes nothing, makes no call, and the
result of close is always Empty; on an Open session close issues exactly rig_close then
rig_cleanup on the held handle, and on an Empty session it issues no call. -/
theorem close_idempotent (self : Hamlib) (rig : RIG) (rigList : List rig_caps) :
    (self.close.self.close.self = self.close.self ∧ self.close.self.m_rig = none ∧
      self.close.self.close.calls = []) ∧
    ((Hamlib.close ⟨some rig, rigList⟩).calls = [Call.rig_close rig, Call.rig_cleanup rig] ∧
      (Hamlib.close ⟨some rig, rigList⟩).self = ⟨none, rigList⟩) ∧
    ((Hamlib.close ⟨none, rigList⟩).calls = [] ∧
      (Hamlib.close ⟨none, rigList⟩).self = ⟨none, rigList⟩) := by
  refine ⟨?_, ⟨rfl, rfl⟩, ⟨rfl, rfl⟩⟩
  obtain ⟨m, l⟩ := self
  cases m <;> exact ⟨rfl, rfl, rfl⟩

/-- C9: on an Open session ptt issues exactly one rig_set_ptt call, on the held handle, for the
current channel, with state ON when pressed and OFF otherwise; it returns true exactly when the
library answers RIG_OK; the error string is empty on success and the library's diagnostic for the
returned code on failure; the session is unchanged. -/
theorem ptt_open_session (svc : RigService) (rig : RIG) (rigList : List rig_caps) (press : Bool)
    (err0 : String) :
    (Hamlib.ptt svc ⟨some rig, rigList⟩ press err0).calls
        = [Call.rig_set_ptt rig .RIG_VFO_CURR (if press then .RIG_PTT_ON else .RIG_PTT_OFF)] ∧
    ((Hamlib.ptt svc ⟨some rig, rigList⟩ press err0).ret = true ↔
      svc.rig_set_ptt rig .RIG_VFO_CURR (if press then .RIG_PTT_ON else .RIG_PTT_OFF)
        = svc.RIG_OK) ∧
    (Hamlib.ptt svc ⟨some rig, rigList⟩ press err0).hamlibError
        = (if svc.rig_set_ptt rig .RIG_VFO_CURR (if press then .RIG_PTT_ON else .RIG_PTT_OFF)
              = svc.RIG_OK then ""
            else svc.rigerror
              (svc.rig_set_ptt rig .RIG_VFO_CURR (if press then .RIG_PTT_ON else .RIG_PTT_OFF))) ∧
    (Hamlib.ptt svc ⟨some rig, rigList⟩ press err0).self = ⟨some rig, rigList⟩ := by
  refine ⟨rfl, ?_, ?_, rfl⟩
  · simp [Hamlib.ptt]
  · simp only [Hamlib.ptt]
    split_ifs <;> simp_all

/-- C5: for every session, Empty or Open, and every index at or beyond the size of the catalogue,
connect returns false, makes no library call and leaves the handle and the catalogue as they
were. -/
theorem connect_index_out_of_range (svc : RigService) (self : Hamlib) (rig_index : Nat)
    (serial_port : List Char) (serial_rate : Int) (h : self.m_rigList.length ≤ rig_index) :
    Hamlib.connect svc self rig_index serial_port serial_rate
      = { ret := false, self := self, calls := [] } := by
  simp [Hamlib.connect, h]

/-- Witness of C5 on an Open session with a one-model catalogue and index 1. -/
theorem connect_index_out_of_range_witness :
    sampleOpen.m_rigList.length ≤ 1 ∧
      Hamlib.connect sampleService sampleOpen 1 "/dev/ttyUSB0".data 0
        = { ret := false, self := sampleOpen, calls := [] } :=
  ⟨by decide, connect_index_out_of_range sampleService sampleOpen 1 "/dev/ttyUSB0".data 0
    (by decide)⟩

/-! ## The sideband check -/

/-- When both queries succeed, `is_correct_sideband` returns the value of the sideband rule on the
reported mode and frequency, with the advisory text when the rule is false. -/
theorem is_correct_sideband_queries_ok (svc : RigService) (rig : RIG) (rigList : List rig_caps)
    (err0 : String) (m : rmode_t) (pb : Int) (f : freq_t)
    (hmode : svc.rig_get_mode rig .RIG_VFO_CURR = (svc.RIG_OK, m, pb))
    (hfreq : svc.rig_get_freq rig .RIG_VFO_CURR = (svc.RIG_OK, f)) :
    Hamlib.is_correct_sideband svc ⟨some rig, rigList⟩ err0
      = { ret := sidebandRule f m,
          hamlibError := if sidebandRule f m then "" else sidebandAdvisory,
          self := ⟨some rig, rigList⟩,
          calls := [Call.rig_get_mode rig .RIG_VFO_CURR, Call.rig_get_freq rig .RIG_VFO_CURR] } := by
  simp only [Hamlib.is_correct_sideband, hmode, hfreq, ne_eq, not_true_eq_false, if_false]
  cases sidebandRule f m <;> rfl

/-- The sideband rule as a proposition on the two comparisons of the frequency. -/
theorem sidebandRule_iff (f : freq_t) (m : rmode_t) :
    sidebandRule f m = true ↔
      (f.ge 10000000 = true ∧ (m = .RIG_MODE_USB ∨ m = .RIG_MODE_PKTUSB)) ∨
      (f.lt 10000000 = true ∧ (m = .RIG_MODE_LSB ∨ m = .RIG_MODE_PKTLSB)) := by
  simp [sidebandRule]

/-- C1: on an Open session whose mode query and frequency query both succeed with mode m and
frequency f, is_correct_sideband returns true exactly when f >= 10,000,000 and m is USB or PKTUSB,
or f < 10,000,000 and m is LSB or PKTLSB.  For a frequency of q Hz the two comparisons are those
of the numbers; so 10,000,000 Hz with USB is correct, 9,999,999 Hz with USB is not, 9,999,999 Hz
with LSB is correct, 10,000,000 Hz with LSB is not, and a mode outside the four is incorrect at
every frequency. -/
theorem is_correct_sideband_rule (svc : RigService) (rig : RIG) (rigList : List rig_caps)
    (err0 : String) (m : rmode_t) (pb : Int) (f : freq_t)
    (hmode : svc.rig_get_mode rig .RIG_VFO_CURR = (svc.RIG_OK, m, pb))
    (hfreq : svc.rig_get_freq rig .RIG_VFO_CURR = (svc.RIG_OK, f)) :
    ((Hamlib.is_correct_sideband svc ⟨some rig, rigList⟩ err0).ret = true ↔
      (f.ge 10000000 = true ∧ (m = .RIG_MODE_USB ∨ m = .RIG_MODE_PKTUSB)) ∨
      (f.lt 10000000 = true ∧ (m = .RIG_MODE_LSB ∨ m = .RIG_MODE_PKTLSB))) ∧
    (∀ q : ℚ, f = .finite q →
      ((Hamlib.is_correct_sideband svc ⟨some rig, rigList⟩ err0).ret = true ↔
        (10000000 ≤ q ∧ (m = .RIG_MODE_USB ∨ m = .RIG_MODE_PKTUSB)) ∨
        (q < 10000000 ∧ (m = .RIG_MODE_LSB ∨ m = .RIG_MODE_PKTLSB)))) ∧
    (f = .finite 10000000 → m = .RIG_MODE_USB →
      (Hamlib.is_correct_sideband svc ⟨some rig, rigList⟩ err0).ret = true) ∧
    (f = .finite 9999999 → m = .RIG_MODE_USB →
      (Hamlib.is_correct_sideband svc ⟨some rig, rigList⟩ err0).ret = false) ∧
    (f = .finite 9999999 → m = .RIG_MODE_LSB →
      (Hamlib.is_correct_sideband svc ⟨some rig, rigList⟩ err0).ret = true) ∧
    (f = .finite 10000000 → m = .RIG_MODE_LSB →
      (Hamlib.is_correct_sideband svc ⟨some rig, rigList⟩ err0).ret = false) ∧
    (m ≠ .RIG_MODE_USB → m ≠ .RIG_MODE_PKTUSB → m ≠ .RIG_MODE_LSB → m ≠ .RIG_MODE_PKTLSB →
      (Hamlib.is_correct_sideband svc ⟨some rig, rigList⟩ err0).ret = false) := by
  rw [is_correct_sideband_queries_ok svc rig rigList err0 m pb f hmode hfreq]
  refine ⟨sidebandRule_iff f m, ?_, ?_, ?_, ?_, ?_, ?_⟩
  · rintro q rfl
    simp [sidebandRule, freq_t.ge, freq_t.lt]
  · rintro rfl rfl
    simp [sidebandRule, freq_t.ge, freq_t.lt]
  · rintro rfl rfl
    simp [sidebandRule, freq_t.ge, freq_t.lt]
    norm_num
  · rintro rfl rfl
    simp [sidebandRule, freq_t.ge, freq_t.lt]
    norm_num
  · rintro rfl rfl
    simp [sidebandRule, freq_t.ge, freq_t.lt]
  · intro h1 h2 h3 h4
    simp [sidebandRule, h1, h2, h3, h4]

/-- Witness of C1: the radio reports upper sideband at 14.236 MHz, and the check answers true. -/
theorem is_correct_sideband_rule_witness :
    sampleService.rig_get_mode sampleRig .RIG_VFO_CURR
        = (sampleService.RIG_OK, rmode_t.RIG_MODE_USB, 2400) ∧
      sampleService.rig_get_freq sampleRig .RIG_VFO_CURR
        = (sampleService.RIG_OK, freq_t.finite 14236000) ∧
      (Hamlib.is_correct_sideband sampleService ⟨some sampleRig, []⟩ "stale").ret = true :=
  ⟨rfl, rfl,
    ((is_correct_sideband_rule sampleService sampleRig [] "stale" .RIG_MODE_USB 2400
        (.finite 14236000) rfl rfl).2.1 14236000 rfl).mpr (Or.inl ⟨by norm_num, Or.inl rfl⟩)⟩

/-- C2: on an Open session whose two queries succeed, whatever the caller's error string held
before: when is_correct_sideband returns false the error string is exactly the fixed advisory
text, and when it returns true the error string is empty. -/
theorem is_correct_sideband_message (svc : RigService) (rig : RIG) (rigList : List rig_caps)
    (err0 : String) (m : rmode_t) (pb : Int) (f : freq_t)
    (hmode : svc.rig_get_mode rig .RIG_VFO_CURR = (svc.RIG_OK, m, pb))
    (hfreq : svc.rig_get_freq rig .RIG_VFO_CURR = (svc.RIG_OK, f)) :
    ((Hamlib.is_correct_sideband svc ⟨some rig, rigList⟩ err0).ret = false →
      (Hamlib.is_correct_sideband svc ⟨some rig, rigList⟩ err0).hamlibError
        = "Your radio may be set to the incorrect sideband for FreeDV (LSB under 10MHz, USB >= 10MHz). Please confirm settings on your radio.") ∧
    ((Hamlib.is_correct_sideband svc ⟨some rig, rigList⟩ err0).ret = true →
      (Hamlib.is_correct_sideband svc ⟨some rig, rigList⟩ err0).hamlibError = "") := by
  rw [is_correct_sideband_queries_ok svc rig rigList err0 m pb f hmode hfreq]
  constructor
  · intro h
    simp only [] at h
    simp only [h]
    rfl
  · intro h
    simp only [] at h
    simp only [h]
    rfl

/-- Witness of C2: upper sideband at 14.236 MHz clears a stale message; the same radio on lower
sideband gets the advisory text. -/
theorem is_correct_sideband_message_witness :
    (Hamlib.is_correct_sideband sampleService ⟨some sampleRig, []⟩ "stale").hamlibError = "" ∧
    (Hamlib.is_correct_sideband
        { sampleService with rig_get_mode := fun _ _ => (0, rmode_t.RIG_MODE_LSB, 2400) }
        ⟨some sampleRig, []⟩ "stale").hamlibError
      = "Your radio may be set to the incorrect sideband for FreeDV (LSB under 10MHz, USB >= 10MHz). Please confirm settings on your radio." :=
  ⟨(is_correct_sideband_message sampleService sampleRig [] "stale" .RIG_MODE_USB 2400
      (.finite 14236000) rfl rfl).2
      (by
        rw [is_correct_sideband_queries_ok _ sampleRig [] "stale" .RIG_MODE_USB 2400
          (.finite 14236000) rfl rfl]
        simp only [sidebandRule, freq_t.ge, freq_t.lt]
        norm_num),
    (is_correct_sideband_message
      { sampleService with rig_get_mode := fun _ _ => (0, rmode_t.RIG_MODE_LSB, 2400) }
      sampleRig [] "stale" .RIG_MODE_LSB 2400 (.finite 14236000) rfl rfl).1
      (by
        rw [is_correct_sideband_queries_ok _ sampleRig [] "stale" .RIG_MODE_LSB 2400
          (.finite 14236000) rfl rfl]
        simp only [sidebandRule, freq_t.ge, freq_t.lt]
        norm_num
        decide)⟩

/-- C3: on an Open session, when the mode query fails, is_correct_sideband returns false with the
library's diagnostic for that code and makes no frequency query; when the mode query succeeds and
the frequency query fails, it returns false with the diagnostic for the frequency query's code.
In both cases the result does not depend on the reported mode or frequency, and the session is
unchanged. -/
theorem is_correct_sideband_query_failure (svc : RigService) (rig : RIG)
    (rigList : List rig_caps) (err0 : String) :
    ((svc.rig_get_mode rig .RIG_VFO_CURR).1 ≠ svc.RIG_OK →
      Hamlib.is_correct_sideband svc ⟨some rig, rigList⟩ err0
        = { ret := false,
            hamlibError := svc.rigerror (svc.rig_get_mode rig .RIG_VFO_CURR).1,
            self := ⟨some rig, rigList⟩,
            calls := [Call.rig_get_mode rig .RIG_VFO_CURR] }) ∧
    ((svc.rig_get_mode rig .RIG_VFO_CURR).1 = svc.RIG_OK →
      (svc.rig_get_freq rig .RIG_VFO_CURR).1 ≠ svc.RIG_OK →
      Hamlib.is_correct_sideband svc ⟨some rig, rigList⟩ err0
        = { ret := false,
            hamlibError := svc.rigerror (svc.rig_get_freq rig .RIG_VFO_CURR).1,
            self := ⟨some rig, rigList⟩,
            calls := [Call.rig_get_mode rig .RIG_VFO_CURR,
              Call.rig_get_freq rig .RIG_VFO_CURR] }) := by
  constructor
  · intro h
    simp [Hamlib.is_correct_sideband, h]
  · intro h1 h2
    simp [Hamlib.is_correct_sideband, h1, h2]

/-- Witness of C3: a radio that answers no query, and one that reports its mode only. -/
theorem is_correct_sideband_query_failure_witness :
    Hamlib.is_correct_sideband deafService ⟨some sampleRig, []⟩ "stale"
        = { ret := false, hamlibError := "Communication timed out",
            self := ⟨some sampleRig, []⟩,
            calls := [Call.rig_get_mode sampleRig .RIG_VFO_CURR] } ∧
    Hamlib.is_correct_sideband halfDeafService ⟨some sampleRig, []⟩ "stale"
        = { ret := false, hamlibError := "Communication timed out",
            self := ⟨some sampleRig, []⟩,
            calls := [Call.rig_get_mode sampleRig .RIG_VFO_CURR,
              Call.rig_get_freq sampleRig .RIG_VFO_CURR] } :=
  ⟨(is_correct_sideband_query_failure deafService sampleRig [] "stale").1 (by decide),
    (is_correct_sideband_query_failure halfDeafService sampleRig [] "stale").2 rfl (by decide)⟩

/-! ## Reconnecting -/

/-- C4, the failing case: the library initializes a handle and then fails to open the port.
connect returns false and the session still holds the new handle, which was neither closed nor
released. -/
theorem connect_open_failure_keeps_handle :
    (Hamlib.connect deafService ⟨none, [icomIC7300]⟩ 0 "/dev/ttyUSB0".data 0).ret
      = false ∧
    (Hamlib.connect deafService ⟨none, [icomIC7300]⟩ 0 "/dev/ttyUSB0".data 0).self.m_rig
      = some (connect_configure deafService sampleRig "/dev/ttyUSB0".data 0) ∧
    (Hamlib.connect deafService ⟨none, [icomIC7300]⟩ 0 "/dev/ttyUSB0".data 0).calls
      = [Call.rig_init 3081 (some sampleRig),
          Call.rig_open (connect_configure deafService sampleRig "/dev/ttyUSB0".data 0)] ∧
    (Hamlib.connect deafService ⟨none, [icomIC7300]⟩ 0 "/dev/ttyUSB0".data 0).self.m_rig
      ≠ none := by
  refine ⟨rfl, rfl, rfl, ?_⟩
  simp [Hamlib.connect, deafService, sampleService]

/-! ## The catalogue order -/

/-- The value of `tolower` is never negative. -/
theorem tolower_nonneg (c : Char) : 0 ≤ tolower c := by
  unfold tolower
  split_ifs <;> omega

/-- A string compares equal to itself. -/
theorem strcasecmp_chars_self (a : List Char) : strcasecmp_chars a a = 0 := by
  induction a with
  | nil => rfl
  | cons x a ih => simp [strcasecmp_chars, ih]

/-- Swapping the arguments of `strcasecmp` negates the result. -/
theorem strcasecmp_chars_swap (a : List Char) :
    ∀ b, strcasecmp_chars b a = - strcasecmp_chars a b := by
  induction a with
  | nil =>
    intro b
    cases b <;> simp [strcasecmp_chars]
  | cons x a ih =>
    intro b
    rcases b with _ | ⟨y, b⟩
    · simp [strcasecmp_chars]
    · simp only [strcasecmp_chars]
      have := ih b
      split_ifs <;> omega

/-- The sign of `strcasecmp` is transitive, strictly so when one of the two steps is strict. -/
theorem strcasecmp_chars_trans (a : List Char) :
    ∀ b c,
      (strcasecmp_chars a b ≤ 0 → strcasecmp_chars b c ≤ 0 → strcasecmp_chars a c ≤ 0) ∧
      (strcasecmp_chars a b < 0 → strcasecmp_chars b c ≤ 0 → strcasecmp_chars a c < 0) ∧
      (strcasecmp_chars a b ≤ 0 → strcasecmp_chars b c < 0 → strcasecmp_chars a c < 0) := by
  induction a with
  | nil =>
    intro b c
    rcases b with _ | ⟨y, b⟩ <;> rcases c with _ | ⟨z, c⟩ <;> simp only [strcasecmp_chars]
    · omega
    · omega
    · have := tolower_nonneg y
      omega
    · have := tolower_nonneg y
      have := tolower_nonneg z
      split_ifs <;> omega
  | cons x a ih =>
    intro b c
    have hx := tolower_nonneg x
    rcases b with _ | ⟨y, b⟩ <;> rcases c with _ | ⟨z, c⟩ <;> simp only [strcasecmp_chars]
    · omega
    · have := tolower_nonneg z
      split_ifs <;> omega
    · have := tolower_nonneg y
      split_ifs <;> omega
    · have := tolower_nonneg y
      have := tolower_nonneg z
      have := ih b c
      split_ifs <;> omega

/-- The comparator `rig_cmp` as a lexicographic comparison of the three keys. -/
theorem rig_cmp_iff (a b : rig_caps) :
    rig_cmp a b = true ↔
      strcasecmp a.mfg_name b.mfg_name < 0 ∨
      (strcasecmp a.mfg_name b.mfg_name = 0 ∧
        (strcasecmp a.model_name b.model_name < 0 ∨
          (strcasecmp a.model_name b.model_name = 0 ∧ a.rig_model < b.rig_model))) := by
  simp only [rig_cmp]
  split_ifs with h1 h2 <;> simp only [decide_eq_true_eq] <;> omega

/-- The negative form of `rig_cmp_iff`. -/
theorem rig_cmp_false_iff (a b : rig_caps) :
    rig_cmp a b = false ↔
      ¬ (strcasecmp a.mfg_name b.mfg_name < 0 ∨
      (strcasecmp a.mfg_name b.mfg_name = 0 ∧
        (strcasecmp a.model_name b.model_name < 0 ∨
          (strcasecmp a.model_name b.model_name = 0 ∧ a.rig_model < b.rig_model)))) := by
  rw [← rig_cmp_iff, Bool.not_eq_true]

/-- The comparator `rig_cmp` is a strict weak ordering. -/
theorem rig_cmp_strictWeakOrdering : StrictWeakOrdering rig_cmp where
  irrefl a := by
    rw [rig_cmp_false_iff]
    have h1 := strcasecmp_chars_self a.mfg_name.data
    have h2 := strcasecmp_chars_self a.model_name.data
    simp only [strcasecmp]
    omega
  asymm a b := by
    rw [rig_cmp_iff, rig_cmp_false_iff]
    have h1 := strcasecmp_chars_swap a.mfg_name.data b.mfg_name.data
    have h2 := strcasecmp_chars_swap a.model_name.data b.model_name.data
    simp only [strcasecmp]
    omega
  trans a b c := by
    rw [rig_cmp_iff, rig_cmp_iff, rig_cmp_iff]
    have h1 := strcasecmp_chars_trans a.mfg_name.data b.mfg_name.data c.mfg_name.data
    have h2 := strcasecmp_chars_trans a.model_name.data b.model_name.data c.model_name.data
    simp only [strcasecmp]
    omega
  incomp_trans a b c := by
    rw [rig_cmp_false_iff, rig_cmp_false_iff, rig_cmp_false_iff, rig_cmp_false_iff,
      rig_cmp_false_iff, rig_cmp_false_iff]
    have h1 := strcasecmp_chars_trans a.mfg_name.data b.mfg_name.data c.mfg_name.data
    have h2 := strcasecmp_chars_trans a.model_name.data b.model_name.data c.model_name.data
    have h3 := strcasecmp_chars_trans c.mfg_name.data b.mfg_name.data a.mfg_name.data
    have h4 := strcasecmp_chars_trans c.model_name.data b.model_name.data a.model_name.data
    have s1 := strcasecmp_chars_swap a.mfg_name.data b.mfg_name.data
    have s2 := strcasecmp_chars_swap a.model_name.data b.model_name.data
    have s3 := strcasecmp_chars_swap b.mfg_name.data c.mfg_name.data
    have s4 := strcasecmp_chars_swap b.model_name.data c.model_name.data
    have s5 := strcasecmp_chars_swap a.mfg_name.data c.mfg_name.data
    have s6 := strcasecmp_chars_swap a.model_name.data c.model_name.data
    simp only [strcasecmp]
    omega

/-- The character built from a code below the surrogate range has that code. -/
theorem toNat_ofNat_small (n : Nat) (h : n < 55296) : (Char.ofNat n).toNat = n := by
  have hv : n.isValidChar := Or.inl h
  simp only [Char.ofNat, hv, dite_true, Char.toNat, Char.ofNatAux]
  have : n < UInt32.size := by
    simp only [UInt32.size]; omega
  simp [UInt32.toNat, this]

/-- The model of the C function `tolower` agrees with the lower-case conversion of the library. -/
theorem tolower_eq (c : Char) : tolower c = ((Char.toLower c).toNat : Int) := by
  unfold tolower Char.toLower
  simp only [ge_iff_le]
  split_ifs with h
  · rw [toNat_ofNat_small _ (by omega)]
    push_cast
    rfl
  · rfl

/-- Only the terminator has lower-case value 0. -/
theorem tolower_eq_zero (c : Char) : tolower c = 0 ↔ c = NUL := by
  unfold tolower
  constructor
  · intro h
    have h0 : c.toNat = 0 := by
      split_ifs at h <;> omega
    have := Char.ofNat_toNat c
    rw [h0] at this
    exact this.symm
  · rintro rfl
    decide


/-- The key of the empty string is empty. -/
theorem spec_name_key_nil : spec_name_key [] = [] := rfl

/-- The key of a non-empty string, in terms of the model of `tolower`. -/
theorem spec_name_key_cons (c : Char) (s : List Char) :
    spec_name_key (c :: s) = if tolower c = 0 then [] else (tolower c).toNat :: spec_name_key s := by
  by_cases h : c = NUL
  · subst h
    simp [spec_name_key, (tolower_eq_zero NUL).mpr rfl]
  · have h' : ¬ tolower c = 0 := fun hh => h ((tolower_eq_zero c).mp hh)
    rw [if_neg h', tolower_eq]
    simp [spec_name_key, List.takeWhile_cons, h]

/-- The sign of `strcasecmp` is the alphabetical order of the lower-case keys. -/
theorem strcasecmp_chars_sign (a : List Char) :
    ∀ b, (strcasecmp_chars a b < 0 ↔ lexLess (spec_name_key a) (spec_name_key b) = true) ∧
      (strcasecmp_chars a b = 0 ↔ spec_name_key a = spec_name_key b) := by
  induction a with
  | nil =>
    intro b
    rcases b with _ | ⟨y, b⟩
    · simp [strcasecmp_chars, spec_name_key_nil, lexLess]
    · have hy := tolower_nonneg y
      simp only [strcasecmp_chars, spec_name_key_nil, spec_name_key_cons]
      split_ifs with h0
      · simp [lexLess, h0]
      · simp [lexLess]
        omega
  | cons x a ih =>
    intro b
    have hx := tolower_nonneg x
    rcases b with _ | ⟨y, b⟩
    · simp only [strcasecmp_chars, spec_name_key_nil, spec_name_key_cons]
      split_ifs with h0
      · simp [lexLess, h0]
      · simp [lexLess]
        omega
    · have hy := tolower_nonneg y
      obtain ⟨ih1, ih2⟩ := ih b
      simp only [strcasecmp_chars, spec_name_key_cons]
      by_cases hxy : tolower x = tolower y
      · by_cases hx0 : tolower x = 0
        · have hy0 : tolower y = 0 := by omega
          simp [hxy, hy0, lexLess]
        · have hy0 : ¬ tolower y = 0 := by omega
          simp [hxy, hy0, lexLess, ← ih1, ← ih2]
      · by_cases hx0 : tolower x = 0
        · have hy0 : ¬ tolower y = 0 := by omega
          simp only [ne_eq, hxy, not_false_eq_true, if_true, hx0, hy0, if_false, lexLess]
          constructor
          · simp; omega
          · simp; omega
        · by_cases hy0 : tolower y = 0
          · simp only [ne_eq, hxy, not_false_eq_true, if_true, hx0, hy0, if_false, lexLess]
            constructor
            · simp; omega
            · simp; omega
          · simp only [ne_eq, hxy, not_false_eq_true, if_true, hx0, hy0, if_false, lexLess]
            have hne : ¬ (tolower x).toNat = (tolower y).toNat := by omega
            constructor
            · simp [hne]; omega
            · simp [hne]; omega

/-- The comparator `rig_cmp` is the order of the catalogue as the specification words it. -/
theorem rig_cmp_eq_spec (a b : rig_caps) : rig_cmp a b = spec_catalog_less a b := by
  have h1 := strcasecmp_chars_sign a.mfg_name.data b.mfg_name.data
  have h2 := strcasecmp_chars_sign a.model_name.data b.model_name.data
  have h := rig_cmp_iff a b
  simp only [strcasecmp] at h
  rw [h1.1, h1.2, h2.1, h2.2] at h
  rw [Bool.eq_iff_iff, h]
  simp [spec_catalog_less]

/-- Walking the registry with `build_list` appends the whole registry, in its order. -/
theorem rig_list_foreach_build_list (registry : List rig_caps) :
    ∀ acc, rig_list_foreach build_list registry acc = acc ++ registry := by
  induction registry with
  | nil => intro acc; simp [rig_list_foreach]
  | cons r rest ih => intro acc; simp [rig_list_foreach, build_list, ih]

/-- Inserting an element yields a permutation of the list with that element in front. -/
theorem ordered_insert_perm {α : Type} (comp : α → α → Bool) (a : α) :
    ∀ l, (ordered_insert comp a l).Perm (a :: l) := by
  intro l
  induction l with
  | nil => exact List.Perm.refl _
  | cons b l ih =>
    simp only [ordered_insert]
    split_ifs
    · exact List.Perm.refl _
    · exact ((ih.cons b).trans (List.Perm.swap a b l))

/-- Inserting into a list in order keeps it in order. -/
theorem ordered_insert_sorted {α : Type} (comp : α → α → Bool) (hc : StrictWeakOrdering comp)
    (a : α) : ∀ l, l.Pairwise (fun x y => comp y x = false) →
      (ordered_insert comp a l).Pairwise (fun x y => comp y x = false) := by
  intro l
  induction l with
  | nil => intro _; simp [ordered_insert]
  | cons b l ih =>
    intro hs
    rw [List.pairwise_cons] at hs
    simp only [ordered_insert]
    split_ifs with hab
    · refine List.pairwise_cons.mpr ⟨?_, List.pairwise_cons.mpr hs⟩
      intro y hy
      rcases List.mem_cons.mp hy with rfl | hy
      · exact hc.asymm a y hab
      · cases hya : comp y a with
        | false => rfl
        | true =>
          have := hc.trans y a b hya hab
          rw [hs.1 y hy] at this
          exact absurd this (by decide)
    · refine List.pairwise_cons.mpr ⟨?_, ih hs.2⟩
      intro y hy
      rcases List.mem_cons.mp ((ordered_insert_perm comp a l).mem_iff.mp hy) with rfl | hy
      · simpa using hab
      · exact hs.1 y hy

/-- Insertion sort meets the contract of `std::sort`. -/
theorem insertion_sort_contract {α : Type} :
    SortContract (insertion_sort : (α → α → Bool) → List α → List α) := by
  intro comp xs hc
  induction xs with
  | nil => exact ⟨List.Perm.refl _, List.Pairwise.nil⟩
  | cons a l ih =>
    simp only [insertion_sort]
    exact ⟨(ordered_insert_perm comp a _).trans (ih.1.cons a),
      ordered_insert_sorted comp hc a _ ih.2⟩

/-- C10: for every registry, and every `std::sort` that meets its contract, the catalogue built by
the constructor is a permutation of the registry in which no later entry compares below an
earlier one under rig_cmp; rig_cmp is the order of the specification, that is by manufacturer name
ignoring case, then by model name ignoring case, then by model identifier, so the catalogue is
ascending in that order; rig_cmp is a strict weak ordering (irreflexive, asymmetric, transitive,
with transitive incomparability); names that differ in case only are tied and the model identifier
decides, and a lower-case name is ordered by its letters, not by its character codes; and the
registry Yaesu FT-817 (120), Icom IC-7300 (3081), Yaesu FT-891 (3069) becomes Icom IC-7300, Yaesu
FT-817, Yaesu FT-891. -/
theorem catalog_sorted
    (std_sort : (rig_caps → rig_caps → Bool) → List rig_caps → List rig_caps)
    (hsort : SortContract std_sort) (svc : RigService) :
    ((Hamlib.ctor std_sort svc).self.m_rigList).Perm svc.registry ∧
    (∀ (i j : Nat) (hi : i < (Hamlib.ctor std_sort svc).self.m_rigList.length)
        (hj : j < (Hamlib.ctor std_sort svc).self.m_rigList.length), i < j →
      rig_cmp ((Hamlib.ctor std_sort svc).self.m_rigList.get ⟨j, hj⟩)
        ((Hamlib.ctor std_sort svc).self.m_rigList.get ⟨i, hi⟩) = false) ∧
    StrictWeakOrdering rig_cmp ∧
    (svc.registry = [yaesuFT817, icomIC7300, yaesuFT891] →
      (Hamlib.ctor std_sort svc).self.m_rigList = [icomIC7300, yaesuFT817, yaesuFT891]) ∧
    (∀ a b : rig_caps, rig_cmp a b = spec_catalog_less a b) ∧
    (∀ (i j : Nat) (hi : i < (Hamlib.ctor std_sort svc).self.m_rigList.length)
        (hj : j < (Hamlib.ctor std_sort svc).self.m_rigList.length), i < j →
      spec_catalog_less ((Hamlib.ctor std_sort svc).self.m_rigList.get ⟨j, hj⟩)
        ((Hamlib.ctor std_sort svc).self.m_rigList.get ⟨i, hi⟩) = false) ∧
    (rig_cmp ⟨"ICOM", "ic-7300", 1⟩ ⟨"icom", "IC-7300", 2⟩ = true ∧
      rig_cmp ⟨"icom", "IC-7300", 2⟩ ⟨"ICOM", "ic-7300", 1⟩ = false ∧
      rig_cmp ⟨"ICOM", "ic-7300", 2⟩ ⟨"icom", "IC-7300", 2⟩ = false ∧
      rig_cmp ⟨"icom", "IC-7300", 2⟩ ⟨"ICOM", "ic-7300", 2⟩ = false) ∧
    (rig_cmp ⟨"icom", "IC-7300", 3081⟩ ⟨"Yaesu", "FT-817", 120⟩ = true ∧
      rig_cmp ⟨"Yaesu", "ft-891", 1⟩ ⟨"Yaesu", "FT-817", 120⟩ = false ∧
      rig_cmp ⟨"Yaesu", "FT-817", 120⟩ ⟨"Yaesu", "ft-891", 1⟩ = true) := by
  have hcat : (Hamlib.ctor std_sort svc).self.m_rigList = std_sort rig_cmp svc.registry := by
    simp [Hamlib.ctor, rig_list_foreach_build_list]
  obtain ⟨hp, hs⟩ := hsort rig_cmp svc.registry rig_cmp_strictWeakOrdering
  rw [hcat]
  have hidx : ∀ (i j : Nat) (hi : i < (std_sort rig_cmp svc.registry).length)
      (hj : j < (std_sort rig_cmp svc.registry).length), i < j →
      rig_cmp ((std_sort rig_cmp svc.registry).get ⟨j, hj⟩)
        ((std_sort rig_cmp svc.registry).get ⟨i, hi⟩) = false := by
    intro i j hi hj hij
    exact (List.pairwise_iff_getElem.mp hs) i j hi hj hij
  refine ⟨hp, hidx, rig_cmp_strictWeakOrdering, ?_, rig_cmp_eq_spec, ?_,
    ⟨by decide, by decide, by decide, by decide⟩, ⟨by decide, by decide, by decide⟩⟩
  · intro hreg
    rw [hreg] at hp hs ⊢
    let r : rig_caps → rig_caps → Prop := fun a b =>
      a ∈ [yaesuFT817, icomIC7300, yaesuFT891] ∧ b ∈ [yaesuFT817, icomIC7300, yaesuFT891] ∧
        rig_cmp b a = false
    have hanti : IsAntisymm rig_caps r := by
      refine ⟨fun a b hab hba => ?_⟩
      obtain ⟨ha, hb, h1⟩ := hab
      obtain ⟨_, _, h2⟩ := hba
      simp only [List.mem_cons, List.mem_singleton, List.mem_nil_iff, or_false] at ha hb
      rcases ha with rfl | rfl | rfl <;> rcases hb with rfl | rfl | rfl <;>
        first
        | rfl
        | exact absurd h1 (by decide)
        | exact absurd h2 (by decide)
    have hs1 : List.Sorted r (std_sort rig_cmp [yaesuFT817, icomIC7300, yaesuFT891]) := by
      refine (List.Pairwise.and_mem.mp hs).imp ?_
      intro a b hab
      exact ⟨hp.mem_iff.mp hab.1, hp.mem_iff.mp hab.2.1, hab.2.2⟩
    have hs2 : List.Sorted r [icomIC7300, yaesuFT817, yaesuFT891] := by
      have h12 : r icomIC7300 yaesuFT817 := ⟨by decide, by decide, by decide⟩
      have h13 : r icomIC7300 yaesuFT891 := ⟨by decide, by decide, by decide⟩
      have h23 : r yaesuFT817 yaesuFT891 := ⟨by decide, by decide, by decide⟩
      simp only [List.Sorted, List.pairwise_cons, List.mem_cons, List.mem_singleton,
        List.not_mem_nil, forall_eq_or_imp, forall_eq, false_imp_iff, implies_true,
        List.Pairwise.nil, and_true]
      exact ⟨⟨h12, h13⟩, h23⟩
    have hp2 : (std_sort rig_cmp [yaesuFT817, icomIC7300, yaesuFT891]).Perm
        [icomIC7300, yaesuFT817, yaesuFT891] :=
      hp.trans (List.Perm.swap icomIC7300 yaesuFT817 [yaesuFT891])
    exact @List.eq_of_perm_of_sorted rig_caps r hanti _ _ hp2 hs1 hs2
  · intro i j hi hj hij
    rw [← rig_cmp_eq_spec]
    exact hidx i j hi hj hij

/-- Witness of C10: insertion sort meets the contract, and with it the constructor orders the
three-model registry of the sample library as Icom IC-7300, Yaesu FT-817, Yaesu FT-891. -/
theorem catalog_sorted_witness :
    SortContract (insertion_sort : (rig_caps → rig_caps → Bool) → List rig_caps → List rig_caps) ∧
    sampleService.registry = [yaesuFT817, icomIC7300, yaesuFT891] ∧
    (Hamlib.ctor insertion_sort sampleService).self.m_rigList
      = [icomIC7300, yaesuFT817, yaesuFT891] :=
  ⟨insertion_sort_contract, rfl,
    (catalog_sorted insertion_sort insertion_sort_contract sampleService).2.2.2.1 rfl⟩

end FreeDV
